import Mathlib

/-!
Verification of the dataset-manipulation layer described by the
`avalanche-datasets` notebook of the Avalanche continual-learning
framework: wrapping a PyTorch dataset in an `AvalancheDataset`,
concatenation, subsampling, data-attribute propagation and the
classification-dataset constructor.

A PyTorch `Dataset` is modelled as the list of its data points:
`__len__` is `List.length` and `__getitem__ idx` is `List.get? idx`,
which returns `none` on the out-of-range error branch.
-/

namespace Avalanche

/-- Modelled from the spec: the implementation of `DataAttribute` is not
part of the supplied sources (only the notebook using it is).  Per the
notebook, a data attribute is a named array carrying per-sample
information (for example class labels or task labels) that is
propagated by the concatenation and subsampling operations. -/
structure DataAttribute where
  name : String
  data : List Nat
deriving DecidableEq, Repr

/-- Modelled from the spec: the implementation of `AvalancheDataset` is
not part of the supplied sources (only the notebook using it is).  An
`AvalancheDataset` wraps an underlying dataset (its list of data
points) together with a list of named data attributes. -/
structure AvalancheDataset (α : Type) where
  data : List α
  attributes : List DataAttribute
deriving DecidableEq, Repr

/-- Modelled from the spec: the `AvalancheDataset(d)` constructor of the
notebook, which wraps a PyTorch dataset without adding attributes or
transformations of its own. -/
def AvalancheDataset.ofDataset {α : Type} (d : List α) : AvalancheDataset α :=
  ⟨d, []⟩

/-- `len(avl_data)`: the length of an `AvalancheDataset`. -/
def AvalancheDataset.len {α : Type} (a : AvalancheDataset α) : Nat :=
  a.data.length

/-- `avl_data[idx]`: the `__getitem__` of an `AvalancheDataset`;
`none` models the out-of-range error branch. -/
def AvalancheDataset.getItem {α : Type} (a : AvalancheDataset α) (idx : Nat) : Option α :=
  a.data.get? idx

/-- Modelled from the spec: attribute propagation under concatenation.
An attribute of the left dataset that is also present (by name) in the
right dataset is kept, with the two data arrays concatenated. -/
def mergeAttrs (as bs : List DataAttribute) : List DataAttribute :=
  as.filterMap fun a =>
    (bs.find? fun b => b.name == a.name).map fun b => ⟨a.name, a.data ++ b.data⟩

/-- Modelled from the spec: `a.concat(b)` returns a new dataset made of
the data points of `a` followed by those of `b`, with data attributes
propagated; the original datasets are left unchanged. -/
def AvalancheDataset.concat {α : Type} (a b : AvalancheDataset α) : AvalancheDataset α :=
  ⟨a.data ++ b.data, mergeAttrs a.attributes b.attributes⟩

/-- Modelled from the spec: `d.subset(ixs)` returns a new dataset whose
`j`-th data point is `d[ixs[j]]`, with every data attribute subsampled
by the same indices; the original dataset is left unchanged. -/
def AvalancheDataset.subset {α : Type} (a : AvalancheDataset α) (ixs : List Nat) :
    AvalancheDataset α :=
  ⟨ixs.filterMap a.data.get?,
   a.attributes.map fun attr => ⟨attr.name, ixs.filterMap attr.data.get?⟩⟩

/-- A PyTorch dataset to be turned into a classification dataset: a
list of `(x, y)` pairs together with an optional `targets` field (the
notebook sets `torch_data.targets` before calling
`make_classification_dataset`). -/
structure TorchClassificationData (α : Type) where
  items : List (α × Nat)
  targets : Option (List Nat)

/-- The task labels actually used by `make_classification_dataset`:
the ones supplied, or one `0` per sample when none are supplied. -/
def taskLabelsOf {α : Type} (d : TorchClassificationData α)
    (task_labels : Option (List Nat)) : List Nat :=
  task_labels.getD (List.replicate d.items.length 0)

/-- Modelled from the spec: `make_classification_dataset` is not part
of the supplied sources (only the notebook using it is).  It requires
the wrapped dataset to contain a valid `targets` field, checks that
targets and task labels have one entry per sample, returns a dataset
of `<x, y, t>` triplets where `t` is the task label (defaulting to 0),
and automatically creates the `targets` and `targets_task_labels`
attributes. -/
def make_classification_dataset {α : Type} (d : TorchClassificationData α)
    (task_labels : Option (List Nat)) : Option (AvalancheDataset (α × Nat × Nat)) :=
  match d.targets with
  | none => none
  | some tgts =>
    let tls := taskLabelsOf d task_labels
    if tgts.length = d.items.length ∧ tls.length = d.items.length then
      some ⟨List.zipWith (fun p t => (p.1, p.2, t)) d.items tls,
            [⟨"targets", tgts⟩, ⟨"targets_task_labels", tls⟩]⟩
    else none

/-- A store of dataset objects, used to express that `concat` and
`subset` are non-mutating: a handle (index into the store) identifies
an object, an operation reads its operands from the store and
allocates a fresh object for its result. -/
structure Store (α : Type) where
  objs : List (AvalancheDataset α)

/-- Dereference a handle in the store. -/
def Store.lookup {α : Type} (s : Store α) (h : Nat) : Option (AvalancheDataset α) :=
  s.objs.get? h

/-- Allocate a new object, returning the new store and the fresh handle. -/
def Store.alloc {α : Type} (s : Store α) (d : AvalancheDataset α) : Store α × Nat :=
  (⟨s.objs ++ [d]⟩, s.objs.length)

/-- `a.concat(b)` as a store operation: read both operands, allocate
the concatenation as a new object. -/
def concatOp {α : Type} (s : Store α) (h₁ h₂ : Nat) : Option (Store α × Nat) :=
  match s.lookup h₁, s.lookup h₂ with
  | some a, some b => some (s.alloc (a.concat b))
  | _, _ => none

/-- `d.subset(ixs)` as a store operation: read the operand, allocate
the subsampled dataset as a new object. -/
def subsetOp {α : Type} (s : Store α) (h₁ : Nat) (ixs : List Nat) : Option (Store α × Nat) :=
  match s.lookup h₁ with
  | some a => some (s.alloc (a.subset ixs))
  | none => none

/-- The datasets reachable by any sequence of
`make_classification_dataset`, `concat` and `subset` applications
starting from a classification dataset. -/
inductive Reachable {α : Type} : AvalancheDataset (α × Nat × Nat) → Prop where
  | base (d : TorchClassificationData α) (tl : Option (List Nat))
      (a : AvalancheDataset (α × Nat × Nat)) :
      make_classification_dataset d tl = some a → Reachable a
  | concat (a b : AvalancheDataset (α × Nat × Nat)) :
      Reachable a → Reachable b → Reachable (a.concat b)
  | subset (a : AvalancheDataset (α × Nat × Nat)) (ixs : List Nat) :
      Reachable a → Reachable (a.subset ixs)

/-- A small concrete PyTorch classification dataset: two samples with
a `targets` field. -/
def sampleTorchData : TorchClassificationData Nat :=
  ⟨[(10, 1), (20, 2)], some [1, 2]⟩

/-- The classification dataset obtained from `sampleTorchData` with no
task labels supplied. -/
def sampleClassificationDataset : AvalancheDataset (Nat × Nat × Nat) :=
  ⟨[(10, 1, 0), (20, 2, 0)],
   [⟨"targets", [1, 2]⟩, ⟨"targets_task_labels", [0, 0]⟩]⟩

end Avalanche

namespace Avalanche

/-! Helper lemmas about `List.get?` and `List.filterMap`. -/

theorem get?_isSome_of_lt {α : Type} (l : List α) (i : Nat) (h : i < l.length) :
    ∃ x, l.get? i = some x := by
  induction l generalizing i with
  | nil => simp at h
  | cons a l ih =>
    cases i with
    | zero => exact ⟨a, rfl⟩
    | succ j => exact ih j (Nat.lt_of_succ_lt_succ h)

theorem filterMap_get?_length {α : Type} (l : List α) (ixs : List Nat)
    (h : ∀ i ∈ ixs, i < l.length) :
    (ixs.filterMap l.get?).length = ixs.length := by
  induction ixs with
  | nil => rfl
  | cons i ixs ih =>
    obtain ⟨x, hx⟩ := get?_isSome_of_lt l i (h i (List.mem_cons_self i ixs))
    rw [List.get?_eq_getElem?] at hx
    simp [List.filterMap_cons, hx, ih fun j hj => h j (List.mem_cons_of_mem i hj)]

theorem filterMap_get?_length_congr {α β : Type} (l₁ : List α) (l₂ : List β)
    (hlen : l₁.length = l₂.length) (ixs : List Nat) :
    (ixs.filterMap l₁.get?).length = (ixs.filterMap l₂.get?).length := by
  induction ixs with
  | nil => rfl
  | cons i ixs ih =>
    by_cases hi : i < l₁.length
    · obtain ⟨x, hx⟩ := get?_isSome_of_lt l₁ i hi
      obtain ⟨y, hy⟩ := get?_isSome_of_lt l₂ i (hlen ▸ hi)
      rw [List.get?_eq_getElem?] at hx hy
      simp [List.filterMap_cons, hx, hy, ih]
    · have h₁ : l₁.get? i = none := List.get?_eq_none.mpr (Nat.le_of_not_lt hi)
      have h₂ : l₂.get? i = none := List.get?_eq_none.mpr (hlen ▸ Nat.le_of_not_lt hi)
      rw [List.get?_eq_getElem?] at h₁ h₂
      simp [List.filterMap_cons, h₁, h₂, ih]

theorem filterMap_get?_get? {α : Type} (l : List α) (ixs : List Nat)
    (h : ∀ i ∈ ixs, i < l.length) (j : Nat) (hj : j < ixs.length) :
    (ixs.filterMap l.get?).get? j = ixs.get? j >>= l.get? := by
  induction ixs generalizing j with
  | nil => simp at hj
  | cons i ixs ih =>
    obtain ⟨x, hx⟩ := get?_isSome_of_lt l i (h i (List.mem_cons_self i ixs))
    rw [List.get?_eq_getElem?] at hx
    cases j with
    | zero => simp [List.filterMap_cons, hx]
    | succ k =>
      have hrec := ih (fun j hj => h j (List.mem_cons_of_mem i hj)) k (Nat.lt_of_succ_lt_succ hj)
      simpa [List.filterMap_cons, hx] using hrec

end Avalanche

namespace Avalanche

theorem get?_zipWith {α β γ : Type} (f : α → β → γ) (l₁ : List α) (l₂ : List β)
    (i : Nat) (x : α) (y : β) (h₁ : l₁.get? i = some x) (h₂ : l₂.get? i = some y) :
    (List.zipWith f l₁ l₂).get? i = some (f x y) := by
  induction l₁ generalizing l₂ i with
  | nil => simp at h₁
  | cons a l₁ ih =>
    cases l₂ with
    | nil => simp at h₂
    | cons b l₂ =>
      cases i with
      | zero =>
        simp only [List.get?_cons_zero, Option.some.injEq] at h₁ h₂
        simp [List.zipWith_cons_cons, h₁, h₂]
      | succ j =>
        simp only [List.get?_cons_succ] at h₁ h₂
        simpa [List.zipWith_cons_cons] using ih l₂ j h₁ h₂

theorem get?_replicate_of_lt {α : Type} (c : α) (n i : Nat) (h : i < n) :
    (List.replicate n c).get? i = some c := by
  induction n generalizing i with
  | zero => simp at h
  | succ m ih =>
    cases i with
    | zero => simp [List.replicate_succ]
    | succ j => simpa [List.replicate_succ] using ih j (Nat.lt_of_succ_lt_succ h)

/-- Inversion of a successful `make_classification_dataset` call. -/
theorem make_classification_dataset_inv {α : Type} {d : TorchClassificationData α}
    {tl : Option (List Nat)} {a : AvalancheDataset (α × Nat × Nat)}
    (h : make_classification_dataset d tl = some a) :
    ∃ tgts, d.targets = some tgts ∧
      tgts.length = d.items.length ∧
      (taskLabelsOf d tl).length = d.items.length ∧
      a = ⟨List.zipWith (fun p t => (p.1, p.2, t)) d.items (taskLabelsOf d tl),
           [⟨"targets", tgts⟩, ⟨"targets_task_labels", taskLabelsOf d tl⟩]⟩ := by
  unfold make_classification_dataset at h
  cases htg : d.targets with
  | none => rw [htg] at h; exact absurd h (by simp)
  | some tgts =>
    rw [htg] at h
    simp only at h
    split at h
    · rename_i hcond
      exact ⟨tgts, rfl, hcond.1, hcond.2, (Option.some.injEq _ _).mp h.symm ▸ rfl⟩
    · exact absurd h (by simp)

theorem len_make {α : Type} {d : TorchClassificationData α} {tl : Option (List Nat)}
    {a : AvalancheDataset (α × Nat × Nat)}
    (h : make_classification_dataset d tl = some a) : a.len = d.items.length := by
  obtain ⟨tgts, -, -, htls, ha⟩ := make_classification_dataset_inv h
  subst ha
  simp [AvalancheDataset.len, List.length_zipWith, htls]

theorem len_concat {α : Type} (a b : AvalancheDataset α) :
    (a.concat b).len = a.len + b.len :=
  List.length_append a.data b.data

theorem len_subset_of_valid {α : Type} (a : AvalancheDataset α) (ixs : List Nat)
    (h : ∀ i ∈ ixs, i < a.len) : (a.subset ixs).len = ixs.length :=
  filterMap_get?_length a.data ixs h

end Avalanche

namespace Avalanche

/-! The claims. -/

/-- C1: wrapping a PyTorch dataset in `AvalancheDataset` is
behaviour-preserving: for every underlying dataset `d` and every index
`idx` with `idx < len d`, the wrapped dataset satisfies
`avl[idx] = d[idx]` and `len avl = len d`; the wrapper adds no
transformation of its own. -/
theorem C1_wrapping_preserves_behaviour {α : Type} (d : List α) (idx : Nat)
    (h : idx < d.length) :
    (AvalancheDataset.ofDataset d).getItem idx = d.get? idx ∧
    (AvalancheDataset.ofDataset d).len = d.length :=
  ⟨rfl, rfl⟩

theorem C1_wrapping_preserves_behaviour_witness :
    1 < [5, 6, 7].length ∧
    ((AvalancheDataset.ofDataset [5, 6, 7]).getItem 1 = [5, 6, 7].get? 1 ∧
     (AvalancheDataset.ofDataset [5, 6, 7]).len = [5, 6, 7].length) :=
  ⟨by decide, C1_wrapping_preserves_behaviour [5, 6, 7] 1 (by decide)⟩

/-- C2: for every pair of `AvalancheDataset`s `a` and `b`, the
concatenation `a.concat b` has length `len a + len b`; in particular a
dataset of 100 elements concatenated with itself has length 200. -/
theorem C2_concat_length {α : Type} (a b : AvalancheDataset α) :
    (a.concat b).len = a.len + b.len :=
  len_concat a b

/-- C3: for every `AvalancheDataset` `d` and list of indices `ixs`
whose elements are all valid indices of `d`, the subsampled dataset
`d.subset ixs` has length `ixs.length`. -/
theorem C3_subset_length {α : Type} (d : AvalancheDataset α) (ixs : List Nat)
    (h : ∀ i ∈ ixs, i < d.len) : (d.subset ixs).len = ixs.length :=
  len_subset_of_valid d ixs h

theorem C3_subset_length_witness :
    (∀ i ∈ [0, 2, 1], i < (AvalancheDataset.ofDataset [5, 6, 7]).len) ∧
    ((AvalancheDataset.ofDataset [5, 6, 7]).subset [0, 2, 1]).len = [0, 2, 1].length :=
  ⟨by decide,
   C3_subset_length (AvalancheDataset.ofDataset [5, 6, 7]) [0, 2, 1] (by decide)⟩

/-- C5: concatenation and subsampling index as follows: for
`c = a.concat b`, `c[i] = a[i]` whenever `i < len a` and
`c[i] = b[i - len a]` whenever `len a ≤ i < len a + len b`; and for
`s = d.subset ixs` with all indices valid, `s[j] = d[ixs[j]]` for every
`j < ixs.length`, so the order of `ixs` is preserved. -/
theorem C5_concat_subset_indexing {α : Type} (a b d : AvalancheDataset α)
    (ixs : List Nat) :
    (∀ i, i < a.len → (a.concat b).getItem i = a.getItem i) ∧
    (∀ i, a.len ≤ i → i < a.len + b.len →
      (a.concat b).getItem i = b.getItem (i - a.len)) ∧
    ((∀ k ∈ ixs, k < d.len) → ∀ j (hj : j < ixs.length),
      (d.subset ixs).getItem j = d.getItem (ixs.get ⟨j, hj⟩)) := by
  refine ⟨fun i hi => List.get?_append hi,
    fun i hi _ => List.get?_append_right hi, ?_⟩
  intro hval j hj
  have hk : ixs.get? j = some (ixs.get ⟨j, hj⟩) := List.get?_eq_get hj
  have := filterMap_get?_get? d.data ixs hval j hj
  rw [hk] at this
  exact this

theorem C5_concat_subset_indexing_witness :
    ((AvalancheDataset.ofDataset [5, 6, 7]).concat
        (AvalancheDataset.ofDataset [8, 9])).getItem 1 =
      (AvalancheDataset.ofDataset [5, 6, 7]).getItem 1 ∧
    ((AvalancheDataset.ofDataset [5, 6, 7]).concat
        (AvalancheDataset.ofDataset [8, 9])).getItem 3 =
      (AvalancheDataset.ofDataset [8, 9]).getItem
        (3 - (AvalancheDataset.ofDataset [5, 6, 7]).len) ∧
    ((AvalancheDataset.ofDataset [5, 6, 7]).subset [2, 0]).getItem 1 =
      (AvalancheDataset.ofDataset [5, 6, 7]).getItem ([2, 0].get ⟨1, by decide⟩) :=
  ⟨(C5_concat_subset_indexing (AvalancheDataset.ofDataset [5, 6, 7])
      (AvalancheDataset.ofDataset [8, 9]) (AvalancheDataset.ofDataset [5, 6, 7])
      [2, 0]).1 1 (by decide),
   (C5_concat_subset_indexing (AvalancheDataset.ofDataset [5, 6, 7])
      (AvalancheDataset.ofDataset [8, 9]) (AvalancheDataset.ofDataset [5, 6, 7])
      [2, 0]).2.1 3 (by decide) (by decide),
   (C5_concat_subset_indexing (AvalancheDataset.ofDataset [5, 6, 7])
      (AvalancheDataset.ofDataset [8, 9]) (AvalancheDataset.ofDataset [5, 6, 7])
      [2, 0]).2.2 (by decide) 1 (by decide)⟩

/-- C10: indexing is total on the valid range: for every
`AvalancheDataset` (in particular everyone produced by the
constructor, `concat` or `subset`), `getItem idx` returns a data point
for every `idx < len`; the out-of-range error branch (`none`) is
unreachable under that precondition. -/
theorem C10_getItem_total {α : Type} (a : AvalancheDataset α) (idx : Nat)
    (h : idx < a.len) : (a.getItem idx).isSome = true := by
  obtain ⟨p, hp⟩ := get?_isSome_of_lt a.data idx h
  show (a.data.get? idx).isSome = true
  rw [hp]
  rfl

theorem C10_getItem_total_witness :
    2 < ((AvalancheDataset.ofDataset [5, 6]).concat
          (AvalancheDataset.ofDataset [7, 8])).len ∧
    (((AvalancheDataset.ofDataset [5, 6]).concat
          (AvalancheDataset.ofDataset [7, 8])).getItem 2).isSome = true :=
  ⟨by decide,
   C10_getItem_total ((AvalancheDataset.ofDataset [5, 6]).concat
     (AvalancheDataset.ofDataset [7, 8])) 2 (by decide)⟩

end Avalanche

namespace Avalanche

theorem store_alloc_frame {α : Type} (s : Store α) (d : AvalancheDataset α) :
    (∀ h, h < s.objs.length → (s.alloc d).1.lookup h = s.lookup h) ∧
    s.lookup (s.alloc d).2 = none := by
  constructor
  · intro h hh
    show (s.objs ++ [d]).get? h = s.objs.get? h
    exact List.get?_append hh
  · show s.objs.get? s.objs.length = none
    exact List.get?_eq_none.mpr (Nat.le_refl _)

/-- C4: `concat` and `subset` are non-mutating: whenever the store
operation for `concat` or `subset` succeeds, every previously
allocated object is unchanged in the resulting store (so the operand
keeps its length, its elements and its data attributes), and the
result handle is a fresh one, i.e. the operations return a new dataset
object. -/
theorem C4_concat_subset_non_mutating {α : Type} (s s₁ s₂ : Store α)
    (h₁ h₂ r₁ r₂ h₀ : Nat) (ixs : List Nat)
    (hc : concatOp s h₁ h₂ = some (s₁, r₁))
    (hs : subsetOp s h₁ ixs = some (s₂, r₂))
    (hh₀ : h₀ < s.objs.length) :
    (s₁.lookup h₀ = s.lookup h₀ ∧ s.lookup r₁ = none) ∧
    (s₂.lookup h₀ = s.lookup h₀ ∧ s.lookup r₂ = none) := by
  unfold concatOp at hc
  unfold subsetOp at hs
  cases ha : s.lookup h₁ with
  | none => rw [ha] at hc; exact absurd hc (by simp)
  | some a =>
    rw [ha] at hc hs
    cases hb : s.lookup h₂ with
    | none => rw [hb] at hc; exact absurd hc (by simp)
    | some b =>
      rw [hb] at hc
      simp only [Option.some.injEq] at hc hs
      constructor
      · have := store_alloc_frame s (a.concat b)
        rw [hc] at this
        exact ⟨this.1 h₀ hh₀, this.2⟩
      · have := store_alloc_frame s (a.subset ixs)
        rw [hs] at this
        exact ⟨this.1 h₀ hh₀, this.2⟩

theorem C4_concat_subset_non_mutating_witness :
    concatOp (Store.mk [AvalancheDataset.ofDataset [5, 6], AvalancheDataset.ofDataset [7]]) 0 1 =
      some (Store.mk [AvalancheDataset.ofDataset [5, 6], AvalancheDataset.ofDataset [7],
        (AvalancheDataset.ofDataset [5, 6]).concat (AvalancheDataset.ofDataset [7])], 2) ∧
    subsetOp (Store.mk [AvalancheDataset.ofDataset [5, 6], AvalancheDataset.ofDataset [7]]) 0 [1] =
      some (Store.mk [AvalancheDataset.ofDataset [5, 6], AvalancheDataset.ofDataset [7],
        (AvalancheDataset.ofDataset [5, 6]).subset [1]], 2) ∧
    0 < (Store.mk [AvalancheDataset.ofDataset [5, 6],
          AvalancheDataset.ofDataset [7]] : Store Nat).objs.length ∧
    (((Store.mk [AvalancheDataset.ofDataset [5, 6], AvalancheDataset.ofDataset [7],
        (AvalancheDataset.ofDataset [5, 6]).concat
          (AvalancheDataset.ofDataset [7])]).lookup 0 =
        (Store.mk [AvalancheDataset.ofDataset [5, 6],
          AvalancheDataset.ofDataset [7]]).lookup 0 ∧
      (Store.mk [AvalancheDataset.ofDataset [5, 6],
        AvalancheDataset.ofDataset [7]]).lookup 2 = none) ∧
     ((Store.mk [AvalancheDataset.ofDataset [5, 6], AvalancheDataset.ofDataset [7],
        (AvalancheDataset.ofDataset [5, 6]).subset [1]]).lookup 0 =
        (Store.mk [AvalancheDataset.ofDataset [5, 6],
          AvalancheDataset.ofDataset [7]]).lookup 0 ∧
      (Store.mk [AvalancheDataset.ofDataset [5, 6],
        AvalancheDataset.ofDataset [7]]).lookup 2 = none)) :=
  ⟨rfl, rfl, by decide,
   C4_concat_subset_non_mutating _ _ _ 0 1 2 2 0 [1] rfl rfl (by decide)⟩

end Avalanche

namespace Avalanche

/-- C6: data attributes are propagated by subsampling: for a
classification dataset of length `n` (whose `targets` and
`targets_task_labels` attributes then have length `n`), the dataset
returned by `subset (range k)` with `k ≤ n` carries attributes with
the same names whose data has length `k`. -/
theorem C6_subset_propagates_attributes {α : Type} (d : TorchClassificationData α)
    (tl : Option (List Nat)) (a : AvalancheDataset (α × Nat × Nat)) (n k : Nat)
    (hmk : make_classification_dataset d tl = some a)
    (hn : a.len = n) (hk : k ≤ n) :
    (a.subset (List.range k)).attributes.map (fun attr => (attr.name, attr.data.length)) =
      [("targets", k), ("targets_task_labels", k)] := by
  obtain ⟨tgts, htg, htglen, htls, ha⟩ := make_classification_dataset_inv hmk
  have hlen : d.items.length = n := (len_make hmk).symm.trans hn
  subst ha
  simp only [AvalancheDataset.subset, List.map_cons, List.map_nil]
  have h1 : ((List.range k).filterMap tgts.get?).length = k := by
    rw [filterMap_get?_length, List.length_range]
    intro i hi
    have := List.mem_range.mp hi
    omega
  have h2 : ((List.range k).filterMap (taskLabelsOf d tl).get?).length = k := by
    rw [filterMap_get?_length, List.length_range]
    intro i hi
    have := List.mem_range.mp hi
    omega
  simp [h1, h2]

theorem C6_subset_propagates_attributes_witness :
    make_classification_dataset sampleTorchData none = some sampleClassificationDataset ∧
    sampleClassificationDataset.len = 2 ∧ 1 ≤ 2 ∧
    (sampleClassificationDataset.subset (List.range 1)).attributes.map
        (fun attr => (attr.name, attr.data.length)) =
      [("targets", 1), ("targets_task_labels", 1)] :=
  ⟨rfl, rfl, by decide,
   C6_subset_propagates_attributes sampleTorchData none sampleClassificationDataset 2 1
     rfl rfl (by decide)⟩

/-- C7: data attributes are propagated by concatenation: for a
classification dataset of length `n` (whose `targets` and
`targets_task_labels` attributes then have length `n`), concatenating
it with itself yields a dataset carrying attributes with the same
names whose data has length `2 * n`. -/
theorem C7_concat_propagates_attributes {α : Type} (d : TorchClassificationData α)
    (tl : Option (List Nat)) (a : AvalancheDataset (α × Nat × Nat)) (n : Nat)
    (hmk : make_classification_dataset d tl = some a) (hn : a.len = n) :
    (a.concat a).attributes.map (fun attr => (attr.name, attr.data.length)) =
      [("targets", 2 * n), ("targets_task_labels", 2 * n)] := by
  obtain ⟨tgts, htg, htglen, htls, ha⟩ := make_classification_dataset_inv hmk
  have hlen : d.items.length = n := (len_make hmk).symm.trans hn
  subst ha
  simp only [AvalancheDataset.concat, mergeAttrs, List.filterMap_cons, List.find?,
    List.length_append]
  simp [List.find?]
  omega

theorem C7_concat_propagates_attributes_witness :
    make_classification_dataset sampleTorchData none = some sampleClassificationDataset ∧
    sampleClassificationDataset.len = 2 ∧
    (sampleClassificationDataset.concat sampleClassificationDataset).attributes.map
        (fun attr => (attr.name, attr.data.length)) =
      [("targets", 2 * 2), ("targets_task_labels", 2 * 2)] :=
  ⟨rfl, rfl,
   C7_concat_propagates_attributes sampleTorchData none sampleClassificationDataset 2
     rfl rfl⟩

end Avalanche

namespace Avalanche

/-- C8: a classification dataset built by `make_classification_dataset`
returns, at every valid index, a triplet `(x, y, t)` whose `t` is the
task label at that index, with `t = 0` when no task labels were
supplied; the wrapped dataset must contain a valid `targets` field,
and the construction creates the `targets` and `targets_task_labels`
attributes. -/
theorem C8_make_classification_dataset_spec {α : Type} (d : TorchClassificationData α)
    (tl : Option (List Nat)) (a : AvalancheDataset (α × Nat × Nat)) (idx : Nat)
    (hmk : make_classification_dataset d tl = some a) (hidx : idx < a.len) :
    d.targets.isSome = true ∧
    a.attributes.map DataAttribute.name = ["targets", "targets_task_labels"] ∧
    (∃ x y t, a.getItem idx = some (x, y, t) ∧
      (taskLabelsOf d tl).get? idx = some t ∧
      (tl = none → t = 0)) := by
  obtain ⟨tgts, htg, htglen, htls, ha⟩ := make_classification_dataset_inv hmk
  have hlen := len_make hmk
  have hidx' : idx < d.items.length := by rw [← hlen]; exact hidx
  subst ha
  refine ⟨by rw [htg]; rfl, by simp, ?_⟩
  obtain ⟨p, hp⟩ := get?_isSome_of_lt d.items idx hidx'
  obtain ⟨t, ht⟩ := get?_isSome_of_lt (taskLabelsOf d tl) idx (by rw [htls]; exact hidx')
  refine ⟨p.1, p.2, t, ?_, ht, ?_⟩
  · show (List.zipWith (fun p t => (p.1, p.2, t)) d.items (taskLabelsOf d tl)).get? idx = _
    exact get?_zipWith _ d.items _ idx p t hp ht
  · intro htl
    subst htl
    have h0 := get?_replicate_of_lt 0 d.items.length idx hidx'
    rw [show taskLabelsOf d none = List.replicate d.items.length 0 from rfl, h0] at ht
    exact (Option.some.inj ht).symm

theorem C8_make_classification_dataset_spec_witness :
    make_classification_dataset sampleTorchData none = some sampleClassificationDataset ∧
    0 < sampleClassificationDataset.len ∧
    (sampleTorchData.targets.isSome = true ∧
     sampleClassificationDataset.attributes.map DataAttribute.name =
       ["targets", "targets_task_labels"] ∧
     (∃ x y t, sampleClassificationDataset.getItem 0 = some (x, y, t) ∧
       (taskLabelsOf sampleTorchData none).get? 0 = some t ∧
       ((none : Option (List Nat)) = none → t = 0))) :=
  ⟨rfl, by decide,
   C8_make_classification_dataset_spec sampleTorchData none sampleClassificationDataset 0
     rfl (by decide)⟩

theorem reachable_attrs_len {α : Type} (a : AvalancheDataset (α × Nat × Nat))
    (hr : Reachable a) : ∀ attr ∈ a.attributes, attr.data.length = a.len := by
  induction hr with
  | base d tl a' hmk =>
    intro attr hattr
    obtain ⟨tgts, htg, htglen, htls, ha⟩ := make_classification_dataset_inv hmk
    have hlen := len_make hmk
    subst ha
    simp only [List.mem_cons, List.not_mem_nil, or_false] at hattr
    rcases hattr with h | h <;> subst h
    · rw [hlen]; exact htglen
    · rw [hlen]; exact htls
  | concat a b hra hrb iha ihb =>
    intro attr hattr
    obtain ⟨attrA, hA, hfa⟩ := List.mem_filterMap.mp hattr
    obtain ⟨attrB, hfind, hmap⟩ := Option.map_eq_some'.mp hfa
    have hB : attrB ∈ b.attributes := List.mem_of_find?_eq_some hfind
    have h1 := iha attrA hA
    have h2 := ihb attrB hB
    rw [← hmap]
    show (attrA.data ++ attrB.data).length = (a.data ++ b.data).length
    rw [List.length_append, List.length_append]
    exact congrArg₂ (· + ·) h1 h2
  | subset a ixs hra iha =>
    intro attr hattr
    obtain ⟨attr₀, h₀, heq⟩ := List.mem_map.mp hattr
    have h1 := iha attr₀ h₀
    rw [← heq]
    show (ixs.filterMap attr₀.data.get?).length = (ixs.filterMap a.data.get?).length
    exact filterMap_get?_length_congr attr₀.data a.data h1 ixs

/-- C9: invariant kept by every operation: every dataset reachable by
any sequence of `make_classification_dataset`, `concat` and `subset`
applications has each of its data attributes of the same length as
the dataset itself, so class and task labels are never lost or left
mismatched with the samples. -/
theorem C9_attribute_length_invariant {α : Type} (a : AvalancheDataset (α × Nat × Nat))
    (attr : DataAttribute) (hr : Reachable a) (hattr : attr ∈ a.attributes) :
    attr.data.length = a.len :=
  reachable_attrs_len a hr attr hattr

theorem C9_attribute_length_invariant_witness :
    Reachable ((sampleClassificationDataset.concat
      sampleClassificationDataset).subset [0, 1, 2]) ∧
    (⟨"targets", [1, 2, 1]⟩ : DataAttribute) ∈
      ((sampleClassificationDataset.concat
        sampleClassificationDataset).subset [0, 1, 2]).attributes ∧
    (⟨"targets", [1, 2, 1]⟩ : DataAttribute).data.length =
      ((sampleClassificationDataset.concat
        sampleClassificationDataset).subset [0, 1, 2]).len :=
  ⟨Reachable.subset _ [0, 1, 2]
     (Reachable.concat _ _
       (Reachable.base sampleTorchData none sampleClassificationDataset rfl)
       (Reachable.base sampleTorchData none sampleClassificationDataset rfl)),
   by decide,
   C9_attribute_length_invariant
     ((sampleClassificationDataset.concat sampleClassificationDataset).subset [0, 1, 2])
     ⟨"targets", [1, 2, 1]⟩
     (Reachable.subset _ [0, 1, 2]
       (Reachable.concat _ _
         (Reachable.base sampleTorchData none sampleClassificationDataset rfl)
         (Reachable.base sampleTorchData none sampleClassificationDataset rfl)))
     (by decide)⟩

end Avalanche
